import Mathlib

/-!
# Verification of the muscle-mem trajectory cache core

Shallow embedding of the repository's core (`src/muscle_mem/chat.py`, the
revision the test-suite exercises, plus the fingerprint-checked tool store
`Tools` of `src/muscle_mem/engine.py`).

Modelling conventions:
* Python values are `PVal V := Option V`; `Option.none` is Python `None`.
* Python `dict`s (insertion ordered) are association lists
  `List (String × _)`; `lookupStr` / `setStr` give `d[k]` / `d[k] = v`.
* Python exceptions are the `Except PyErr` monad (`ValueError`, `KeyError`,
  `IndexError`).  `PyErr.fuelExhausted` is an embedding artifact used only
  when a `while` loop runs out of fuel; the theorems always supply enough.
* `time.time()` values are rationals, passed explicitly as `now`.
* Object aliasing between `DB._storage[key]` and the `CandidateSet` is
  modelled by keeping the stored trajectory list `trajs` itself in the
  replay state and letting the candidate pool be a list `order` of indices
  into it (Python mutates the shared `Trajectory` objects in place, and
  `remove_current` only drops them from the sorted candidate copy).
-/

namespace MuscleMem

/-- Python exception kinds raised by the modelled code, plus the fuel
artifact for the replay `while` loop. -/
inductive PyErr : Type where
  | valueError : String → PyErr
  | keyError : PyErr
  | indexError : PyErr
  | fuelExhausted : PyErr
deriving DecidableEq

/-- A Python value: `none` is Python `None`. -/
abbrev PVal (V : Type) := Option V

/-- Decidable equality for modelled results, so that witnesses can be
checked by evaluation. -/
instance {ε α : Type} [DecidableEq ε] [DecidableEq α] : DecidableEq (Except ε α) := by
  intro a b
  cases a with
  | error e =>
    cases b with
    | error e' => exact decidable_of_iff (e = e') (by constructor <;> (intro h; cases h <;> rfl))
    | ok v => exact Decidable.isFalse (by intro h; cases h)
  | ok v =>
    cases b with
    | error e' => exact Decidable.isFalse (by intro h; cases h)
    | ok v' => exact decidable_of_iff (v = v') (by constructor <;> (intro h; cases h <;> rfl))

/-- `d[k]` for an insertion-ordered dict modelled as an association list. -/
def lookupStr {β : Type} (k : String) : List (String × β) → Option β
  | [] => none
  | (k', v) :: rest => if k' = k then some v else lookupStr k rest

/-- `d[k] = v` for a dict: overwrite in place (keeping insertion position),
else append. -/
def setStr {β : Type} (k : String) (v : β) : List (String × β) → List (String × β)
  | [] => [(k, v)]
  | (k', v') :: rest => if k' = k then (k, v) :: rest else (k', v') :: setStr k v rest

/-- `class Check`: a capture / compare pair (chat.py lines 151-154; the spec
describes the same shape for engine.py's missing `check.py`).  `capture`
reads the live environment `E` at the given call arguments. -/
structure Check (V E S : Type) where
  capture : E → List (PVal V) → List (String × PVal V) → S
  compare : S → S → Bool

/-- `@dataclass Tool` of chat.py: callable, method flag, optional pre-check.
`name` is Python's `func.__name__`; `func` acts on the environment. -/
structure Tool (V E S : Type) where
  name : String
  func : E → List (PVal V) → List (String × PVal V) → E
  is_method : Bool
  pre_check : Option (Check V E S)

/-- `class ArgType(Enum)` of chat.py. -/
inductive ArgKind : Type where
  | PARAM : ArgKind
  | STATIC : ArgKind
deriving DecidableEq

/-- `@dataclass(frozen=True) class Arg` of chat.py: `kind`, optional `key`
(for PARAM), optional `value` (for STATIC). -/
structure Arg (V : Type) where
  kind : ArgKind
  key : Option String := none
  value : Option V := none
deriving DecidableEq

/-- `Arg.__post_init__`: PARAM args need a key, STATIC args need a (non-None)
value; otherwise `ValueError`. -/
def Arg.make {V : Type} [DecidableEq V] (kind : ArgKind) (key : Option String) (value : Option V) :
    Except PyErr (Arg V) :=
  if kind = ArgKind.PARAM ∧ key = none then
    Except.error (PyErr.valueError "PARAM args need a key")
  else if kind = ArgKind.STATIC ∧ value = none then
    Except.error (PyErr.valueError "STATIC args need a value")
  else
    Except.ok { kind := kind, key := key, value := value }

/-- `@dataclass Step` of chat.py. -/
structure Step (V S : Type) where
  func_name : String
  args : List (Arg V)
  kwargs : List (String × Arg V)
  pre_check_snapshot : Option S := none
deriving DecidableEq

/-- `@dataclass Trajectory` of chat.py.  `last_successful_run` defaults to
`time.time()` at creation, passed explicitly here. -/
structure Trajectory (V S : Type) where
  steps : List (Step V S)
  successful_runs : Nat := 0
  failed_runs : Nat := 0
  last_successful_run : Rat
deriving DecidableEq

/-- `class RuntimeContext` state: shared receiver `method_dep` (Python `None`
when unset) and the invocation parameter dict. -/
structure RuntimeContext (V : Type) where
  method_dep : PVal V := none
  params : List (String × PVal V) := []
deriving DecidableEq

variable {V E S : Type} [DecidableEq V]

/-- `v in self.params.values()` followed by
`next(k for k, val in self.params.items() if val == v)`: the key of the
first parameter entry whose value equals `v`, if any. -/
def findParamKey (params : List (String × PVal V)) (v : PVal V) : Option String :=
  match params.find? (fun p => decide (p.2 = v)) with
  | some p => some p.1
  | none => none

/-- The per-value classification done inside `RuntimeContext.strip`: a
parameter reference when the value matches a parameter, otherwise a static
literal (built through the checked `Arg` constructor). -/
def stripValue (params : List (String × PVal V)) (v : PVal V) : Except PyErr (Arg V) :=
  match findParamKey params v with
  | some k => Arg.make ArgKind.PARAM (some k) none
  | none => Arg.make ArgKind.STATIC none v

/-- The positional-argument loop of `RuntimeContext.strip`. -/
def stripArgs (params : List (String × PVal V)) : List (PVal V) → Except PyErr (List (Arg V))
  | [] => Except.ok []
  | v :: vs =>
    match stripValue params v with
    | Except.error e => Except.error e
    | Except.ok a =>
      match stripArgs params vs with
      | Except.error e => Except.error e
      | Except.ok rest => Except.ok (a :: rest)

/-- The keyword-argument loop of `RuntimeContext.strip`. -/
def stripKwargs (params : List (String × PVal V)) :
    List (String × PVal V) → Except PyErr (List (String × Arg V))
  | [] => Except.ok []
  | (k, v) :: vs =>
    match stripValue params v with
    | Except.error e => Except.error e
    | Except.ok a =>
      match stripKwargs params vs with
      | Except.error e => Except.error e
      | Except.ok rest => Except.ok ((k, a) :: rest)

/-- `RuntimeContext.strip` (chat.py lines 203-222): drop the first positional
argument when a receiver is bound (`args_list = args_list[1:]`), then
classify every remaining value. -/
def RuntimeContext.strip (ctx : RuntimeContext V) (args : List (PVal V))
    (kwargs : List (String × PVal V)) :
    Except PyErr (List (Arg V) × List (String × Arg V)) :=
  match stripArgs ctx.params (if ctx.method_dep ≠ none then args.tail else args) with
  | Except.error e => Except.error e
  | Except.ok sa =>
    match stripKwargs ctx.params kwargs with
    | Except.error e => Except.error e
    | Except.ok sk => Except.ok (sa, sk)

/-- Reconstructing one `Arg` inside `RuntimeContext.inject`:
`self.params[entry.key]` for PARAM (a `KeyError` when unbound), the stored
literal for STATIC. -/
def injectArg (params : List (String × PVal V)) (a : Arg V) : Except PyErr (PVal V) :=
  match a.kind with
  | ArgKind.PARAM =>
    match a.key with
    | none => Except.error PyErr.keyError
    | some k =>
      match lookupStr k params with
      | none => Except.error PyErr.keyError
      | some v => Except.ok v
  | ArgKind.STATIC => Except.ok a.value

/-- The positional loop of `RuntimeContext.inject`. -/
def injectArgs (params : List (String × PVal V)) : List (Arg V) → Except PyErr (List (PVal V))
  | [] => Except.ok []
  | a :: rest =>
    match injectArg params a with
    | Except.error e => Except.error e
    | Except.ok v =>
      match injectArgs params rest with
      | Except.error e => Except.error e
      | Except.ok vs => Except.ok (v :: vs)

/-- The keyword loop of `RuntimeContext.inject`. -/
def injectKwargs (params : List (String × PVal V)) :
    List (String × Arg V) → Except PyErr (List (String × PVal V))
  | [] => Except.ok []
  | (k, a) :: rest =>
    match injectArg params a with
    | Except.error e => Except.error e
    | Except.ok v =>
      match injectKwargs params rest with
      | Except.error e => Except.error e
      | Except.ok vs => Except.ok ((k, v) :: vs)

/-- `RuntimeContext.inject` (chat.py lines 224-240): re-prepend the bound
receiver when one is set, then substitute the current parameter values at
PARAM references and replay STATIC literals. -/
def RuntimeContext.inject (ctx : RuntimeContext V) (args : List (Arg V))
    (kwargs : List (String × Arg V)) :
    Except PyErr (List (PVal V) × List (String × PVal V)) :=
  match injectArgs ctx.params args with
  | Except.error e => Except.error e
  | Except.ok vs =>
    match injectKwargs ctx.params kwargs with
    | Except.error e => Except.error e
    | Except.ok kvs =>
      Except.ok ((if ctx.method_dep ≠ none then [ctx.method_dep] else []) ++ vs, kvs)

/-- `Recorder.record` (chat.py lines 250-254): strip the call and build the
`Step` carrying the captured pre-check snapshot. -/
def Recorder.record (ctx : RuntimeContext V) (tool : Tool V E S) (args : List (PVal V))
    (kwargs : List (String × PVal V)) (pre_snap : Option S) : Except PyErr (Step V S) :=
  match ctx.strip args kwargs with
  | Except.error e => Except.error e
  | Except.ok sa =>
    Except.ok { func_name := tool.name, args := sa.1, kwargs := sa.2,
                pre_check_snapshot := pre_snap }

/-- One tool invocation made by the agent while in fallback mode: the wrapped
tool (the wrapper closes over it) and the concrete arguments. -/
structure AgentCall (V E S : Type) where
  tool : Tool V E S
  args : List (PVal V)
  kwargs : List (String × PVal V)

/-- The agent run under the `_register_tool` wrapper (chat.py lines 358-369)
with a live `Recorder`: for each call, capture the pre-check snapshot (when
declared) before running `func`, then record the step — but only when the
tool declares a pre-check (`... and self._recorder and tool.pre_check`).
Returns the final environment and the recorded steps. -/
def runAgent (ctx : RuntimeContext V) : E → List (AgentCall V E S) →
    Except PyErr (E × List (Step V S))
  | env, [] => Except.ok (env, [])
  | env, c :: cs =>
    let snap := c.tool.pre_check.map (fun ch => ch.capture env c.args c.kwargs)
    let env' := c.tool.func env c.args c.kwargs
    if c.tool.pre_check.isSome then
      match Recorder.record ctx c.tool c.args c.kwargs snap with
      | Except.error e => Except.error e
      | Except.ok stp =>
        match runAgent ctx env' cs with
        | Except.error e => Except.error e
        | Except.ok r => Except.ok (r.1, stp :: r.2)
    else
      runAgent ctx env' cs

/-- `sort_fn` of `CandidateSet.__init__` (chat.py lines 263-267):
`(successful_runs / max(1, total)) * (now - last_successful_run)`. -/
def sort_fn (t : Trajectory V S) (now : Rat) : Rat :=
  let total : Nat := t.successful_runs + t.failed_runs
  ((t.successful_runs : Rat) / ((max 1 total : Nat) : Rat)) * (now - t.last_successful_run)

/-- Stable insertion into a list sorted by `sort_fn` descending: the new
element goes before the first element whose score is not greater (so equal
scores keep original order, as Python's stable `sort(reverse=True)` does). -/
def insertDesc (now : Rat) (x : Nat × Trajectory V S) :
    List (Nat × Trajectory V S) → List (Nat × Trajectory V S)
  | [] => [x]
  | y :: ys =>
    if sort_fn y.2 now ≤ sort_fn x.2 now then x :: y :: ys else y :: insertDesc now x ys

/-- Stable sort by `sort_fn` descending (insertion sort: any stable sort
computes the same list as Python's `list.sort(key=..., reverse=True)`). -/
def sortDesc (now : Rat) : List (Nat × Trajectory V S) → List (Nat × Trajectory V S)
  | [] => []
  | x :: xs => insertDesc now x (sortDesc now xs)

/-- `CandidateSet.__init__` (chat.py lines 258-270): the candidate pool,
as the list of indices into the stored trajectory list, sorted by score
descending.  (Indices model Python's shared `Trajectory` objects: the sorted
pool is a copy of the storage list, whose elements alias storage.) -/
def sortCandidates (trajs : List (Trajectory V S)) (now : Rat) : List Nat :=
  (sortDesc now trajs.enum).map (fun p => p.1)

/-- `Replayer.get_next_step` (chat.py lines 288-312), acting on the shared
storage list `trajs`, the candidate index pool `order` and the committed
prefix `pfx`.  Returns the chosen step (or `none` for "replay complete" /
"pool exhausted"), the updated storage list, the remaining pool, the updated
prefix, and the `exhausted` flag. -/
def Replayer.get_next_step (reg : List (String × Tool V E S)) (ctx : RuntimeContext V)
    (now : Rat) (env : E) :
    List (Trajectory V S) → List Nat → List (Step V S) →
    Except PyErr (Option (Step V S) × List (Trajectory V S) × List Nat × List (Step V S) × Bool)
  | trajs, [], pfx => Except.ok (none, trajs, [], pfx, true)
  | trajs, i :: rest, pfx =>
    match trajs[i]? with
    | none => Except.error PyErr.indexError
    | some t =>
      if t.steps.length = pfx.length then
        Except.ok (none,
          trajs.set i { t with successful_runs := t.successful_runs + 1,
                               last_successful_run := now },
          i :: rest, pfx, false)
      else
        match t.steps[pfx.length]? with
        | none => Except.error PyErr.indexError
        | some stp =>
          match lookupStr stp.func_name reg with
          | none => Except.error PyErr.keyError
          | some tool =>
            match stp.pre_check_snapshot, tool.pre_check with
            | some snap, some ch =>
              match ctx.inject stp.args stp.kwargs with
              | Except.error e => Except.error e
              | Except.ok cargs =>
                if ch.compare (ch.capture env cargs.1 cargs.2) snap then
                  Except.ok (some stp, trajs, i :: rest, pfx ++ [stp], false)
                else
                  Replayer.get_next_step reg ctx now env
                    (trajs.set i { t with failed_runs := t.failed_runs + 1 }) rest pfx
            | _, _ => Except.ok (some stp, trajs, i :: rest, pfx ++ [stp], false)

/-- The `while (step := replayer.get_next_step())` loop of `Engine.__call__`
(chat.py lines 382-385): execute each returned step for real (resolve the
tool, inject the arguments, run `func`) until `get_next_step` returns
`None`.  Fuel bounds the iteration count. -/
def Engine.replayLoop (reg : List (String × Tool V E S)) (ctx : RuntimeContext V) (now : Rat) :
    Nat → E → List (Trajectory V S) → List Nat → List (Step V S) →
    Except PyErr (Bool × E × List (Trajectory V S) × List Nat × List (Step V S))
  | 0, _, _, _, _ => Except.error PyErr.fuelExhausted
  | fuel + 1, env, trajs, order, pfx =>
    match Replayer.get_next_step reg ctx now env trajs order pfx with
    | Except.error e => Except.error e
    | Except.ok (none, trajs', order', pfx', ex) => Except.ok (ex, env, trajs', order', pfx')
    | Except.ok (some stp, trajs', order', pfx', _) =>
      match lookupStr stp.func_name reg with
      | none => Except.error PyErr.keyError
      | some tool =>
        match ctx.inject stp.args stp.kwargs with
        | Except.error e => Except.error e
        | Except.ok cargs =>
          Engine.replayLoop reg ctx now fuel (tool.func env cargs.1 cargs.2) trajs' order' pfx'

/-- `if params: self._context.set_params(params)` (chat.py lines 377-378):
the shared context's params are overwritten only when a non-empty mapping is
supplied (`None` and `{}` are both falsy). -/
def Engine.updCtx (ctx : RuntimeContext V) (params : Option (List (String × PVal V))) :
    RuntimeContext V :=
  match params with
  | none => ctx
  | some ps => if ps = [] then ctx else { ctx with params := ps }

/-- `DB.add_trajectory`'s new record (chat.py lines 140-144):
`Trajectory(steps=list(steps), successful_runs=1, failed_runs=0)` with
`last_successful_run` defaulting to creation time. -/
def recordedTraj (steps : List (Step V S)) (now : Rat) : Trajectory V S :=
  { steps := steps, successful_runs := 1, failed_runs := 0, last_successful_run := now }

/-- The engine's mutable state: the `DB` storage dict, the tool registry
dict, and the long-lived shared `RuntimeContext`. -/
structure EngineState (V E S : Type) where
  db : List (String × List (Trajectory V S))
  registry : List (String × Tool V E S)
  ctx : RuntimeContext V

/-- `Engine.__call__` (chat.py lines 371-398).  `agentCalls` is the sequence
of wrapped tool invocations the (opaque) agent makes if it is consulted.
Returns the hit flag, the updated engine state and the final environment.
The miss branch appends `Trajectory(steps, successful_runs=1,
failed_runs=0)` (i.e. `DB.add_trajectory`, chat.py lines 140-144) to the
storage list the replayer worked on. -/
def Engine.call (fuel : Nat) (st : EngineState V E S) (agentCalls : List (AgentCall V E S))
    (skill : Option String) (params : Option (List (String × PVal V))) (now : Rat) (env : E) :
    Except PyErr (Bool × EngineState V E S × E) :=
  let ctx' := Engine.updCtx st.ctx params
  let key := skill.getD ""
  let stored := (lookupStr key st.db).getD []
  match Engine.replayLoop st.registry ctx' now fuel env stored (sortCandidates stored now) [] with
  | Except.error e => Except.error e
  | Except.ok (ex, env', trajs', _, _) =>
    if ex then
      match runAgent ctx' env' agentCalls with
      | Except.error e => Except.error e
      | Except.ok r =>
        Except.ok (false,
          { st with db := setStr key (trajs' ++ [recordedTraj r.2 now]) st.db, ctx := ctx' },
          r.1)
    else
      Except.ok (true, { st with db := setStr key trajs' st.db, ctx := ctx' }, env')

/-- `ToolRegistry.add_tool` (chat.py lines 167-171): unconditional dict
assignment `self._tools[func.__name__] = tool` — no duplicate check. -/
def ToolRegistry.add_tool (reg : List (String × Tool V E S)) (tool : Tool V E S) :
    List (String × Tool V E S) :=
  setStr tool.name tool reg

/-- `ToolRegistry.get_tool` (chat.py lines 173-175): plain dict lookup
(`none` stands for the `KeyError` the callers surface). -/
def ToolRegistry.get_tool (reg : List (String × Tool V E S)) (name : String) :
    Option (Tool V E S) :=
  lookupStr name reg

/-- engine.py's `Tool` dataclass (lines 32-48): name, AST fingerprint,
method flag and optional checks.  The `Check` shape is the one the spec
gives for the repository's `check.py` (not included under src/). -/
structure ETool (V E S : Type) where
  func : E → List (PVal V) → List (String × PVal V) → E
  func_name : String
  func_hash : String
  is_method : Bool
  pre_check : Option (Check V E S)
  post_check : Option (Check V E S)

/-- `Tools.register` (engine.py lines 61-65): duplicate names raise
`ValueError`. -/
def Tools.register (ts : List (String × ETool V E S)) (t : ETool V E S) :
    Except PyErr (List (String × ETool V E S)) :=
  if (lookupStr t.func_name ts).isSome then
    Except.error (PyErr.valueError ("Tool by name " ++ t.func_name ++ " already registered"))
  else
    Except.ok (ts ++ [(t.func_name, t)])

/-- `Tools.get` (engine.py lines 70-80): resolve a recorded step's tool by
name and fingerprint; any mismatch is an ordinary `None`, never an
exception. -/
def Tools.get (ts : List (String × ETool V E S)) (name : String) (hash : String) :
    Option (ETool V E S) :=
  match lookupStr name ts with
  | none => none
  | some t => if t.func_hash = hash then some t else none

/-! ## Statement-side helpers (not part of the embedded code) -/

/-- The value `inject` produces for one recorded `Arg` under the current
parameter bindings, assuming every referenced key is bound: the bound value
for a parameter reference, the stored literal for a static Arg. -/
def substArg (params : List (String × PVal V)) (a : Arg V) : PVal V :=
  match a.kind with
  | ArgKind.PARAM =>
    match a.key with
    | some k => (lookupStr k params).getD none
    | none => none
  | ArgKind.STATIC => a.value

/-- "The environment is (still) within check tolerance for these recorded
steps": every step's tool resolves, its arguments inject, and (when both a
recorded snapshot and a live pre-check exist) the captured snapshot
compares equal to the recorded one, step by step along the replayed
environment. -/
def stepsOk (reg : List (String × Tool V E S)) (ctx : RuntimeContext V) :
    E → List (Step V S) → Bool
  | _, [] => true
  | env, s :: rest =>
    match lookupStr s.func_name reg with
    | none => false
    | some tool =>
      match ctx.inject s.args s.kwargs with
      | Except.error _ => false
      | Except.ok c =>
        (match s.pre_check_snapshot, tool.pre_check with
         | some snap, some ch => ch.compare (ch.capture env c.1 c.2) snap
         | _, _ => true)
        && stepsOk reg ctx (tool.func env c.1 c.2) rest

/-- The environment after executing the recorded steps for real (as the
replay loop does); leaves the environment unchanged at a step that does not
resolve or inject. -/
def execSteps (reg : List (String × Tool V E S)) (ctx : RuntimeContext V) :
    E → List (Step V S) → E
  | env, [] => env
  | env, s :: rest =>
    match lookupStr s.func_name reg with
    | none => env
    | some tool =>
      match ctx.inject s.args s.kwargs with
      | Except.error _ => env
      | Except.ok c => execSteps reg ctx (tool.func env c.1 c.2) rest

/-- The engine state after `n` repeated invocations, each started from the
restored environment `envR` (error results leave the state unchanged). -/
def iterCalls (fuel : Nat) (calls : List (AgentCall V E S)) (skill : Option String)
    (params : Option (List (String × PVal V))) (now : Rat) (envR : E) :
    Nat → EngineState V E S → EngineState V E S
  | 0, st => st
  | n + 1, st =>
    match Engine.call fuel st calls skill params now envR with
    | Except.ok r => iterCalls fuel calls skill params now envR n r.2.1
    | Except.error _ => st

/-- All of `n` repeated invocations, each from the restored environment
`envR`, return a cache hit. -/
def allHits (fuel : Nat) (calls : List (AgentCall V E S)) (skill : Option String)
    (params : Option (List (String × PVal V))) (now : Rat) (envR : E) :
    Nat → EngineState V E S → Bool
  | 0, _ => true
  | n + 1, st =>
    match Engine.call fuel st calls skill params now envR with
    | Except.ok (true, st', _) => allHits fuel calls skill params now envR n st'
    | _ => false

/-- Hit flag of an engine invocation result. -/
def hitOf (r : Except PyErr (Bool × EngineState V E S × E)) : Option Bool :=
  match r with
  | Except.ok x => some x.1
  | Except.error _ => none

/-- Final environment of an engine invocation result. -/
def envOf (r : Except PyErr (Bool × EngineState V E S × E)) : Option E :=
  match r with
  | Except.ok x => some x.2.2
  | Except.error _ => none

/-- Storage dict of an engine invocation result. -/
def dbOf (r : Except PyErr (Bool × EngineState V E S × E)) :
    Option (List (String × List (Trajectory V S))) :=
  match r with
  | Except.ok x => some x.2.1.db
  | Except.error _ => none

/-- Context parameter bindings of an engine invocation result. -/
def ctxParamsOf (r : Except PyErr (Bool × EngineState V E S × E)) :
    Option (List (String × PVal V)) :=
  match r with
  | Except.ok x => some x.2.1.ctx.params
  | Except.error _ => none

/-- Engine state of an invocation result (default on error). -/
def stOf (r : Except PyErr (Bool × EngineState V E S × E)) (dflt : EngineState V E S) :
    EngineState V E S :=
  match r with
  | Except.ok x => some x.2.1 |>.getD dflt
  | Except.error _ => dflt

/-! ## Concrete instances used by witnesses and counterexamples -/

/-- A pre-check whose comparison always fails (stale state). -/
def exCheckFail : Check Nat Nat Nat :=
  { capture := fun env _ _ => env, compare := fun _ _ => false }

/-- An equality pre-check over a counter environment. -/
def exCheckEq : Check Nat Nat Nat :=
  { capture := fun env _ _ => env, compare := fun a b => a == b }

/-- A tool whose pre-check always fails to validate. -/
def exToolBad : Tool Nat Nat Nat :=
  { name := "bad", func := fun env _ _ => env, is_method := false,
    pre_check := some exCheckFail }

/-- A tool with no pre-check. -/
def exToolPlain : Tool Nat Nat Nat :=
  { name := "plain", func := fun env _ _ => env + 1, is_method := false, pre_check := none }

/-- A counter-increment tool with an equality pre-check; adds its first
positional argument to the environment. -/
def exToolInc : Tool Nat Nat Nat :=
  { name := "inc",
    func := fun env args _ => env + (match args with | some n :: _ => n | _ => 0),
    is_method := false, pre_check := some exCheckEq }

/-- A registry holding the three example tools. -/
def exReg : List (String × Tool Nat Nat Nat) :=
  [("bad", exToolBad), ("plain", exToolPlain), ("inc", exToolInc)]

/-- An empty runtime context. -/
def exCtx : RuntimeContext Nat := { method_dep := none, params := [] }

/-- A recorded step of the always-failing tool, with a snapshot. -/
def exStepBad : Step Nat Nat :=
  { func_name := "bad", args := [], kwargs := [], pre_check_snapshot := some 0 }

/-- A recorded step of the always-failing tool, without a snapshot. -/
def exStepNoSnap : Step Nat Nat :=
  { func_name := "bad", args := [], kwargs := [], pre_check_snapshot := none }

/-- A recorded step of the checkless tool, with a (spurious) snapshot. -/
def exStepPlain : Step Nat Nat :=
  { func_name := "plain", args := [], kwargs := [], pre_check_snapshot := some 0 }

/-- A trajectory whose single step always fails validation. -/
def exTrajBad : Trajectory Nat Nat :=
  { steps := [exStepBad], successful_runs := 0, failed_runs := 0, last_successful_run := 0 }

/-- A trajectory whose single step carries no snapshot. -/
def exTrajNoSnap : Trajectory Nat Nat :=
  { steps := [exStepNoSnap], successful_runs := 0, failed_runs := 0, last_successful_run := 0 }

/-- A trajectory whose single step names the checkless tool. -/
def exTrajPlain : Trajectory Nat Nat :=
  { steps := [exStepPlain], successful_runs := 0, failed_runs := 0, last_successful_run := 0 }

/-- engine.py example tool, fingerprint "h1". -/
def exEt1 : ETool Nat Nat Nat :=
  { func := fun env _ _ => env, func_name := "f", func_hash := "h1", is_method := false,
    pre_check := none, post_check := none }

/-- engine.py example tool with the same name and a different fingerprint. -/
def exEt2 : ETool Nat Nat Nat :=
  { func := fun env _ _ => env + 1, func_name := "f", func_hash := "h2", is_method := true,
    pre_check := none, post_check := none }

/-- engine.py tool store holding `exEt1` under "f". -/
def exEts : List (String × ETool Nat Nat Nat) := [("f", exEt1)]

/-- chat.py tool named "f", plain function. -/
def exToolF1 : Tool Nat Nat Nat :=
  { name := "f", func := fun env _ _ => env, is_method := false, pre_check := none }

/-- A second chat.py tool also named "f" (marked as a method to tell the two
apart). -/
def exToolF2 : Tool Nat Nat Nat :=
  { name := "f", func := fun env _ _ => env + 1, is_method := true, pre_check := none }

/-- chat.py registry holding `exToolF1` under "f". -/
def exRegF : List (String × Tool Nat Nat Nat) := [("f", exToolF1)]

/-- Engine state with an empty store over the example registry. -/
def exStEmpty : EngineState Nat Nat Nat := { db := [], registry := exReg, ctx := exCtx }

/-- Agent behavior: one call to the checkless tool. -/
def c4Calls : List (AgentCall Nat Nat Nat) :=
  [{ tool := exToolPlain, args := [], kwargs := [] }]

/-- The C4 counterexample invocation: unseen key, agent makes one call to a
tool without a pre-check. -/
def c4Run : Except PyErr (Bool × EngineState Nat Nat Nat × Nat) :=
  Engine.call 1 exStEmpty c4Calls none none 0 0

/-- One agent call to the pre-checked increment tool with static argument
2. -/
def c4wCall : AgentCall Nat Nat Nat :=
  { tool := exToolInc, args := [some 2], kwargs := [] }

/-- Agent behavior: one call to the pre-checked increment tool with static
argument 2. -/
def c4wCalls : List (AgentCall Nat Nat Nat) := [c4wCall]

/-- The step that call records from counter 0. -/
def c4wStep : Step Nat Nat :=
  { func_name := "inc", args := [{ kind := ArgKind.STATIC, key := none, value := some 2 }],
    kwargs := [], pre_check_snapshot := some 0 }

/-- A stored step replaying `inc 3` under snapshot 10. -/
def c5Step : Step Nat Nat :=
  { func_name := "inc", args := [{ kind := ArgKind.STATIC, key := none, value := some 3 }],
    kwargs := [], pre_check_snapshot := some 10 }

/-- A once-recorded trajectory for the C5 witness. -/
def c5Traj : Trajectory Nat Nat :=
  { steps := [c5Step], successful_runs := 1, failed_runs := 0, last_successful_run := 0 }

/-- Engine state holding exactly one trajectory under the default key. -/
def c5St : EngineState Nat Nat Nat :=
  { db := [("", [c5Traj])], registry := exReg, ctx := exCtx }

/-- Agent behavior for the C8 scenario: one call to `inc` with argument 5
(which equals the invocation parameter "n"). -/
def c8Calls : List (AgentCall Nat Nat Nat) :=
  [{ tool := exToolInc, args := [some 5], kwargs := [] }]

/-- C8 first invocation: skill "s", params `{"n": 5}`, counter 0 — a miss
that records one parameterized step. -/
def c8Run1 : Except PyErr (Bool × EngineState Nat Nat Nat × Nat) :=
  Engine.call 2 exStEmpty c8Calls (some "s") (some [("n", some 5)]) 0 0

/-- C8 second invocation: same skill, **no params supplied**, counter
restored to 0. -/
def c8Run2 : Except PyErr (Bool × EngineState Nat Nat Nat × Nat) :=
  Engine.call 2 (stOf c8Run1 exStEmpty) [] (some "s") none 0 0

/-- Trajectories for the C6 counterexample: equal totals, equal
`last_successful_run`, different success ratios. -/
def c6t1 : Trajectory Nat Nat :=
  { steps := [], successful_runs := 1, failed_runs := 0, last_successful_run := 1 }

/-- The all-failed twin of `c6t1`. -/
def c6t2 : Trajectory Nat Nat :=
  { steps := [], successful_runs := 0, failed_runs := 1, last_successful_run := 1 }

/-- A context with a bound receiver and no parameters, for the strip/inject
counterexamples. -/
def c3Ctx : RuntimeContext Nat := { method_dep := some 0, params := [] }

/-- Reliable trajectory (two successes) for the C6 witness. -/
def c6w1 : Trajectory Nat Nat :=
  { steps := [], successful_runs := 2, failed_runs := 0, last_successful_run := 0 }

/-- Mixed-record twin of `c6w1` with the same total. -/
def c6w2 : Trajectory Nat Nat :=
  { steps := [], successful_runs := 1, failed_runs := 1, last_successful_run := 0 }

/-- Same success ratio as `c6w1` but revalidated more recently. -/
def c6w3 : Trajectory Nat Nat :=
  { steps := [], successful_runs := 1, failed_runs := 0, last_successful_run := 3 }

/-- `exTrajBad` after one failed validation. -/
def exTrajBadFailed : Trajectory Nat Nat :=
  { exTrajBad with failed_runs := exTrajBad.failed_runs + 1 }

/-- The trajectory recorded by an agent run that made no pre-checked calls. -/
def exTrajEmpty : Trajectory Nat Nat :=
  { steps := [], successful_runs := 1, failed_runs := 0, last_successful_run := 0 }

/-- Engine state after a first miss on the default key with nothing
recorded. -/
def exStAfterMiss : EngineState Nat Nat Nat :=
  { db := [("", [exTrajEmpty])], registry := exReg, ctx := exCtx }

/-- The in-place success bookkeeping of a fully consumed candidate:
`successful_runs += 1; last_successful_run = now`. -/
def bumpSuccess (t : Trajectory V S) (now : Rat) : Trajectory V S :=
  { t with successful_runs := t.successful_runs + 1, last_successful_run := now }

/-- Decidable form of "this Arg's parameter reference (if any) is bound in
`params`". -/
def keyBound (params : List (String × PVal V)) (a : Arg V) : Bool :=
  match a.kind, a.key with
  | ArgKind.PARAM, some k => (lookupStr k params).isSome
  | ArgKind.PARAM, none => false
  | ArgKind.STATIC, _ => true

/-! ## Theorems -/

theorem lookupStr_of_mem_nodup {β : Type} {l : List (String × β)} {k : String} {v : β}
    (hm : (k, v) ∈ l) (hn : (l.map Prod.fst).Nodup) : lookupStr k l = some v := by
  induction l with
  | nil => cases hm
  | cons p rest ih =>
    cases p with
    | mk k' v' =>
      simp only [List.map_cons, List.nodup_cons] at hn
      rcases List.mem_cons.mp hm with h | h
      · injection h with h1 h2
        subst h1
        subst h2
        simp [lookupStr]
      · have hne : k' ≠ k := by
          intro hkk
          exact hn.1 (by rw [hkk]; exact List.mem_map.mpr ⟨(k, v), h, rfl⟩)
        simp only [lookupStr, if_neg hne]
        exact ih h hn.2

theorem Arg_make_param {k : String} :
    Arg.make (V := V) ArgKind.PARAM (some k) none =
      Except.ok { kind := ArgKind.PARAM, key := some k, value := none } := rfl

theorem Arg_make_static {x : V} :
    Arg.make ArgKind.STATIC none (some x) =
      Except.ok { kind := ArgKind.STATIC, key := none, value := some x } := rfl

theorem Arg_make_static_none {key : Option String} :
    Arg.make (V := V) ArgKind.STATIC key none =
      Except.error (PyErr.valueError "STATIC args need a value") := rfl

theorem findParamKey_some_mem {params : List (String × PVal V)} {v : PVal V} {k : String}
    (hf : findParamKey params v = some k) : (k, v) ∈ params := by
  unfold findParamKey at hf
  cases hfind : params.find? (fun p => decide (p.2 = v)) with
  | none => rw [hfind] at hf; cases hf
  | some p =>
    rw [hfind] at hf
    simp at hf
    have hp2 : p.2 = v := by simpa using List.find?_some hfind
    have hmem := List.mem_of_find?_eq_some hfind
    rw [← hf, ← hp2]
    exact hmem

theorem findParamKey_none_of_no_none {params : List (String × PVal V)}
    (hp : ∀ p ∈ params, p.2 ≠ (none : PVal V)) : findParamKey params (none : PVal V) = none := by
  unfold findParamKey
  rw [List.find?_eq_none.mpr (fun p hpm => by simpa using hp p hpm)]

theorem stripValue_param {params : List (String × PVal V)} {v : PVal V} {k : String}
    (hf : findParamKey params v = some k) :
    stripValue params v = Except.ok { kind := ArgKind.PARAM, key := some k, value := none } := by
  unfold stripValue
  rw [hf]
  exact rfl

theorem stripValue_static {params : List (String × PVal V)} {x : V}
    (hf : findParamKey params (some x) = none) :
    stripValue params (some x) =
      Except.ok { kind := ArgKind.STATIC, key := none, value := some x } := by
  unfold stripValue
  rw [hf]
  exact rfl

theorem stripValue_of_none {params : List (String × PVal V)}
    (hf : findParamKey params (none : PVal V) = none) :
    stripValue params (none : PVal V) =
      Except.error (PyErr.valueError "STATIC args need a value") := by
  unfold stripValue
  rw [hf]
  exact rfl

theorem stripValue_roundtrip {params : List (String × PVal V)}
    (hn : (params.map Prod.fst).Nodup) {v : PVal V} {a : Arg V}
    (h : stripValue params v = Except.ok a) : injectArg params a = Except.ok v := by
  cases hf : findParamKey params v with
  | some k =>
    rw [stripValue_param hf] at h
    cases h
    have hl : lookupStr k params = some v := lookupStr_of_mem_nodup (findParamKey_some_mem hf) hn
    simp [injectArg, hl]
  | none =>
    cases v with
    | none => rw [stripValue_of_none hf] at h; cases h
    | some x =>
      rw [stripValue_static hf] at h
      cases h
      simp [injectArg]

theorem stripArgs_roundtrip {params : List (String × PVal V)}
    (hn : (params.map Prod.fst).Nodup) :
    ∀ {vs : List (PVal V)} {l : List (Arg V)},
      stripArgs params vs = Except.ok l → injectArgs params l = Except.ok vs := by
  intro vs
  induction vs with
  | nil =>
    intro l h
    simp only [stripArgs] at h
    cases h
    rfl
  | cons v vs ih =>
    intro l h
    simp only [stripArgs] at h
    cases h1 : stripValue params v with
    | error e => rw [h1] at h; cases h
    | ok a =>
      rw [h1] at h
      cases h2 : stripArgs params vs with
      | error e => rw [h2] at h; cases h
      | ok rest =>
        rw [h2] at h
        cases h
        simp [injectArgs, stripValue_roundtrip hn h1, ih h2]

theorem stripKwargs_roundtrip {params : List (String × PVal V)}
    (hn : (params.map Prod.fst).Nodup) :
    ∀ {vs : List (String × PVal V)} {l : List (String × Arg V)},
      stripKwargs params vs = Except.ok l → injectKwargs params l = Except.ok vs := by
  intro vs
  induction vs with
  | nil =>
    intro l h
    simp only [stripKwargs] at h
    cases h
    rfl
  | cons p vs ih =>
    intro l h
    cases p with
    | mk k v =>
      simp only [stripKwargs] at h
      cases h1 : stripValue params v with
      | error e => rw [h1] at h; cases h
      | ok a =>
        rw [h1] at h
        cases h2 : stripKwargs params vs with
        | error e => rw [h2] at h; cases h
        | ok rest =>
          rw [h2] at h
          cases h
          simp [injectKwargs, stripValue_roundtrip hn h1, ih h2]

theorem injectArg_subst {params : List (String × PVal V)} {a : Arg V}
    (hb : keyBound params a = true) : injectArg params a = Except.ok (substArg params a) := by
  cases a with
  | mk kind key value =>
    cases kind with
    | PARAM =>
      cases key with
      | none => simp [keyBound] at hb
      | some k =>
        simp only [keyBound] at hb
        cases hl : lookupStr k params with
        | none => rw [hl] at hb; simp at hb
        | some w => simp [injectArg, substArg, hl]
    | STATIC => simp [injectArg, substArg]

theorem injectArgs_subst {params : List (String × PVal V)} :
    ∀ {l : List (Arg V)}, (∀ a ∈ l, keyBound params a = true) →
      injectArgs params l = Except.ok (l.map (substArg params)) := by
  intro l
  induction l with
  | nil => intro _; simp [injectArgs]
  | cons a rest ih =>
    intro hb
    have h1 := injectArg_subst (hb a (List.mem_cons_self a rest))
    have h2 := ih (fun x hx => hb x (List.mem_cons_of_mem a hx))
    simp [injectArgs, h1, h2]

theorem injectKwargs_subst {params : List (String × PVal V)} :
    ∀ {l : List (String × Arg V)}, (∀ p ∈ l, keyBound params p.2 = true) →
      injectKwargs params l = Except.ok (l.map (fun p => (p.1, substArg params p.2))) := by
  intro l
  induction l with
  | nil => intro _; simp [injectKwargs]
  | cons p rest ih =>
    intro hb
    have h1 := injectArg_subst (hb p (List.mem_cons_self p rest))
    have h2 := ih (fun x hx => hb x (List.mem_cons_of_mem p hx))
    cases p with
    | mk k a => simp [injectKwargs, h1, h2]

/-- The C3 counterexample: with a receiver bound and no parameters, `strip`
of the empty call succeeds, but re-`inject`-ing under the identical context
prepends the receiver and does not return the original `(args, kwargs)`. -/
theorem c3_strip_inject_not_roundtrip :
    RuntimeContext.strip c3Ctx [] [] = Except.ok ([], []) ∧
    RuntimeContext.inject c3Ctx [] [] = Except.ok ([some 0], []) ∧
    ([some 0] : List (PVal Nat)) ≠ [] := by
  refine ⟨by decide, by decide, by decide⟩

/-- C3 (amended): under a duplicate-free parameter dict,
`inject (strip args kwargs) = (args, kwargs)` whenever `strip` succeeds and
the bound receiver (if any) is the first positional argument; and under any
rebinding whose referenced keys are bound, `inject` substitutes the current
parameter value at every PARAM Arg and leaves every STATIC Arg unchanged. -/
theorem c3_roundtrip_and_substitution (V : Type) [DecidableEq V] :
    (∀ (ctx : RuntimeContext V) (args : List (PVal V)) (kwargs : List (String × PVal V))
       (sa : List (Arg V)) (sk : List (String × Arg V)),
      (ctx.params.map Prod.fst).Nodup →
      (ctx.method_dep = none ∨ ∃ rest, args = ctx.method_dep :: rest) →
      ctx.strip args kwargs = Except.ok (sa, sk) →
      ctx.inject sa sk = Except.ok (args, kwargs)) ∧
    (∀ (ctx : RuntimeContext V) (args : List (Arg V)) (kwargs : List (String × Arg V)),
      (∀ a ∈ args, keyBound ctx.params a = true) →
      (∀ p ∈ kwargs, keyBound ctx.params p.2 = true) →
      ctx.inject args kwargs = Except.ok
        ((if ctx.method_dep ≠ none then [ctx.method_dep] else []) ++
          args.map (substArg ctx.params),
         kwargs.map (fun p => (p.1, substArg ctx.params p.2)))) := by
  constructor
  · intro ctx args kwargs sa sk hn hrecv h
    unfold RuntimeContext.strip at h
    cases hd : ctx.method_dep with
    | none =>
      rw [hd] at h
      simp at h
      cases h1 : stripArgs ctx.params args with
      | error e => rw [h1] at h; cases h
      | ok l1 =>
        rw [h1] at h
        cases h2 : stripKwargs ctx.params kwargs with
        | error e => rw [h2] at h; cases h
        | ok l2 =>
          rw [h2] at h
          simp at h
          unfold RuntimeContext.inject
          rw [← h.1, ← h.2, stripArgs_roundtrip hn h1, stripKwargs_roundtrip hn h2]
          simp [hd]
    | some d =>
      rcases hrecv with hr | ⟨rest, hr⟩
      · rw [hd] at hr; cases hr
      · rw [hd] at h
        simp at h
        rw [hr] at h
        simp at h
        cases h1 : stripArgs ctx.params rest with
        | error e => rw [h1] at h; cases h
        | ok l1 =>
          rw [h1] at h
          cases h2 : stripKwargs ctx.params kwargs with
          | error e => rw [h2] at h; cases h
          | ok l2 =>
            rw [h2] at h
            simp at h
            unfold RuntimeContext.inject
            rw [← h.1, ← h.2, stripArgs_roundtrip hn h1, stripKwargs_roundtrip hn h2]
            simp [hd, hr]
  · intro ctx args kwargs ha hk
    unfold RuntimeContext.inject
    rw [injectArgs_subst ha, injectKwargs_subst hk]

/-- Witness for the amended C3 at a concrete context: a recorded mix of a
parameter reference and a static literal round-trips, and re-binding "n"
to 9 substitutes the new value at the reference only. -/
theorem c3_roundtrip_witness :
    RuntimeContext.inject ({ method_dep := none, params := [("n", some 5)] } : RuntimeContext Nat)
        [{ kind := ArgKind.PARAM, key := some "n", value := none },
         { kind := ArgKind.STATIC, key := none, value := some 7 }] [] =
      Except.ok ([some 5, some 7], []) ∧
    RuntimeContext.inject ({ method_dep := none, params := [("n", some 9)] } : RuntimeContext Nat)
        [{ kind := ArgKind.PARAM, key := some "n", value := none },
         { kind := ArgKind.STATIC, key := none, value := some 7 }] [] =
      Except.ok ([some 9, some 7], []) := by
  constructor
  · exact (c3_roundtrip_and_substitution Nat).1
      { method_dep := none, params := [("n", some 5)] } [some 5, some 7] [] _ _
      (by decide) (Or.inl rfl) (by decide)
  · have h := (c3_roundtrip_and_substitution Nat).2
      { method_dep := none, params := [("n", some 9)] }
      [{ kind := ArgKind.PARAM, key := some "n", value := none },
       { kind := ArgKind.STATIC, key := none, value := some 7 }] []
      (by decide) (by decide)
    simpa using h

theorem stripValue_error_msg {params : List (String × PVal V)} {v : PVal V} {e : PyErr}
    (h : stripValue params v = Except.error e) :
    e = PyErr.valueError "STATIC args need a value" := by
  unfold stripValue at h
  cases hf : findParamKey params v with
  | some k => rw [hf] at h; unfold Arg.make at h; simp at h
  | none =>
    rw [hf] at h
    cases v with
    | none => unfold Arg.make at h; simp at h; exact h.symm
    | some x => unfold Arg.make at h; simp at h

theorem stripArgs_error_msg {params : List (String × PVal V)} :
    ∀ {vs : List (PVal V)} {e : PyErr}, stripArgs params vs = Except.error e →
      e = PyErr.valueError "STATIC args need a value" := by
  intro vs
  induction vs with
  | nil => intro e h; simp [stripArgs] at h
  | cons v vs ih =>
    intro e h
    simp only [stripArgs] at h
    cases h1 : stripValue params v with
    | error e' => rw [h1] at h; simp at h; rw [← h]; exact stripValue_error_msg h1
    | ok a =>
      rw [h1] at h
      cases h2 : stripArgs params vs with
      | error e' => rw [h2] at h; simp at h; rw [← h]; exact ih h2
      | ok rest => rw [h2] at h; cases h

theorem stripValue_none_error {params : List (String × PVal V)}
    (hp : ∀ p ∈ params, p.2 ≠ (none : PVal V)) :
    stripValue params (none : PVal V) = Except.error (PyErr.valueError "STATIC args need a value") := by
  have hf : findParamKey params (none : PVal V) = none := by
    unfold findParamKey
    have : params.find? (fun p => decide (p.2 = (none : PVal V))) = none :=
      List.find?_eq_none.mpr (fun p hpm => by simpa using hp p hpm)
    rw [this]
  unfold stripValue
  rw [hf]
  unfold Arg.make
  simp

theorem stripArgs_none_error {params : List (String × PVal V)}
    (hp : ∀ p ∈ params, p.2 ≠ (none : PVal V)) :
    ∀ {vs : List (PVal V)}, (none : PVal V) ∈ vs →
      stripArgs params vs = Except.error (PyErr.valueError "STATIC args need a value") := by
  intro vs
  induction vs with
  | nil => intro h; cases h
  | cons v vs ih =>
    intro hm
    simp only [stripArgs]
    rcases List.mem_cons.mp hm with h | h
    · rw [← h, stripValue_none_error hp]
    · cases h1 : stripValue params v with
      | error e' => rw [stripValue_error_msg h1]
      | ok a => rw [ih h]

theorem stripKwargs_none_error {params : List (String × PVal V)}
    (hp : ∀ p ∈ params, p.2 ≠ (none : PVal V)) :
    ∀ {vs : List (String × PVal V)}, (∃ k, (k, (none : PVal V)) ∈ vs) →
      stripKwargs params vs = Except.error (PyErr.valueError "STATIC args need a value") := by
  intro vs
  induction vs with
  | nil => rintro ⟨k, h⟩; cases h
  | cons p vs ih =>
    rintro ⟨k, hm⟩
    cases p with
    | mk k' v =>
      simp only [stripKwargs]
      rcases List.mem_cons.mp hm with h | h
      · have hv : v = none := by cases h; rfl
        rw [hv, stripValue_none_error hp]
      · cases h1 : stripValue params v with
        | error e' => rw [stripValue_error_msg h1]
        | ok a => rw [ih ⟨k, h⟩]

/-- The C9 counterexample: with a receiver bound, a call whose only
positional argument is `None` does not raise — the receiver drop removes it
before classification (the parameter dict here is empty, so `None` is not
among the parameter values). -/
theorem c9_strip_accepts_receiver_none :
    RuntimeContext.strip c3Ctx [none] [] = Except.ok ([], []) ∧
    (none : PVal Nat) ∈ [(none : PVal Nat)] ∧
    c3Ctx.params = [] := by
  refine ⟨by decide, by decide, by decide⟩

/-- C9 (amended): whenever `None` is not among the parameter values and
appears as a keyword value or as a positional value surviving the receiver
drop, `strip` raises `ValueError` — because the `Arg` constructor rejects a
STATIC arg whose value is `None`. -/
theorem c9_strip_none_valueerror (V : Type) [DecidableEq V] :
    (∀ (ctx : RuntimeContext V) (args : List (PVal V)) (kwargs : List (String × PVal V)),
      (∀ p ∈ ctx.params, p.2 ≠ (none : PVal V)) →
      ((none : PVal V) ∈ (if ctx.method_dep ≠ none then args.tail else args) ∨
        ∃ k, (k, (none : PVal V)) ∈ kwargs) →
      ctx.strip args kwargs = Except.error (PyErr.valueError "STATIC args need a value")) ∧
    (∀ (key : Option String),
      Arg.make (V := V) ArgKind.STATIC key none =
        Except.error (PyErr.valueError "STATIC args need a value")) := by
  constructor
  · intro ctx args kwargs hp hm
    unfold RuntimeContext.strip
    cases h1 : stripArgs ctx.params (if ctx.method_dep ≠ none then args.tail else args) with
    | error e => rw [stripArgs_error_msg h1]
    | ok sa =>
      rcases hm with h | h
      · rw [stripArgs_none_error hp h] at h1; cases h1
      · rw [stripKwargs_none_error hp h]
  · intro key
    unfold Arg.make
    simp

/-- Witness for the amended C9: a `None` keyword value (with no receiver
bound and a parameter dict not containing `None`) makes `strip` raise, and
the checked `Arg` constructor rejects STATIC-with-None directly. -/
theorem c9_strip_none_valueerror_witness :
    RuntimeContext.strip ({ method_dep := none, params := [("n", some 5)] } : RuntimeContext Nat)
        [some 1] [("x", none)] =
      Except.error (PyErr.valueError "STATIC args need a value") ∧
    Arg.make (V := Nat) ArgKind.STATIC none none =
      Except.error (PyErr.valueError "STATIC args need a value") := by
  constructor
  · exact (c9_strip_none_valueerror Nat).1
      { method_dep := none, params := [("n", some 5)] } [some 1] [("x", none)]
      (by decide) (Or.inr ⟨"x", by decide⟩)
  · exact (c9_strip_none_valueerror Nat).2 none

theorem getNextStep_validation {reg : List (String × Tool V E S)} {ctx : RuntimeContext V}
    {now : Rat} {env : E} {trajs : List (Trajectory V S)} {i : Nat} {rest : List Nat}
    {pfx : List (Step V S)} {t : Trajectory V S} {stp : Step V S} {tool : Tool V E S}
    {snap : S} {ch : Check V E S} {cargs : List (PVal V) × List (String × PVal V)}
    (h1 : trajs[i]? = some t) (h2 : ¬ t.steps.length = pfx.length)
    (h3 : t.steps[pfx.length]? = some stp)
    (h4 : lookupStr stp.func_name reg = some tool)
    (h5 : stp.pre_check_snapshot = some snap) (h6 : tool.pre_check = some ch)
    (h7 : ctx.inject stp.args stp.kwargs = Except.ok cargs) :
    Replayer.get_next_step reg ctx now env trajs (i :: rest) pfx =
      if ch.compare (ch.capture env cargs.1 cargs.2) snap then
        Except.ok (some stp, trajs, i :: rest, pfx ++ [stp], false)
      else
        Replayer.get_next_step reg ctx now env
          (trajs.set i { t with failed_runs := t.failed_runs + 1 }) rest pfx := by
  simp only [Replayer.get_next_step, h1, h3, h4, h5, h6, h7, if_neg h2]

theorem getNextStep_prune {reg : List (String × Tool V E S)} {ctx : RuntimeContext V}
    {now : Rat} {env : E} {trajs : List (Trajectory V S)} {i : Nat} {rest : List Nat}
    {pfx : List (Step V S)} {t : Trajectory V S} {stp : Step V S} {tool : Tool V E S}
    {snap : S} {ch : Check V E S} {cargs : List (PVal V) × List (String × PVal V)}
    (h1 : trajs[i]? = some t) (h2 : ¬ t.steps.length = pfx.length)
    (h3 : t.steps[pfx.length]? = some stp)
    (h4 : lookupStr stp.func_name reg = some tool)
    (h5 : stp.pre_check_snapshot = some snap) (h6 : tool.pre_check = some ch)
    (h7 : ctx.inject stp.args stp.kwargs = Except.ok cargs)
    (h8 : ch.compare (ch.capture env cargs.1 cargs.2) snap = false) :
    Replayer.get_next_step reg ctx now env trajs (i :: rest) pfx =
      Replayer.get_next_step reg ctx now env
        (trajs.set i { t with failed_runs := t.failed_runs + 1 }) rest pfx := by
  rw [getNextStep_validation h1 h2 h3 h4 h5 h6 h7, h8]
  simp

theorem getNextStep_commit_nosnap {reg : List (String × Tool V E S)} {ctx : RuntimeContext V}
    {now : Rat} {env : E} {trajs : List (Trajectory V S)} {i : Nat} {rest : List Nat}
    {pfx : List (Step V S)} {t : Trajectory V S} {stp : Step V S} {tool : Tool V E S}
    (h1 : trajs[i]? = some t) (h2 : ¬ t.steps.length = pfx.length)
    (h3 : t.steps[pfx.length]? = some stp)
    (h4 : lookupStr stp.func_name reg = some tool)
    (h5 : stp.pre_check_snapshot = none) :
    Replayer.get_next_step reg ctx now env trajs (i :: rest) pfx =
      Except.ok (some stp, trajs, i :: rest, pfx ++ [stp], false) := by
  simp only [Replayer.get_next_step, h1, h3, h4, h5, if_neg h2]

theorem getNextStep_commit_nocheck {reg : List (String × Tool V E S)} {ctx : RuntimeContext V}
    {now : Rat} {env : E} {trajs : List (Trajectory V S)} {i : Nat} {rest : List Nat}
    {pfx : List (Step V S)} {t : Trajectory V S} {stp : Step V S} {tool : Tool V E S}
    (h1 : trajs[i]? = some t) (h2 : ¬ t.steps.length = pfx.length)
    (h3 : t.steps[pfx.length]? = some stp)
    (h4 : lookupStr stp.func_name reg = some tool)
    (h6 : tool.pre_check = none) :
    Replayer.get_next_step reg ctx now env trajs (i :: rest) pfx =
      Except.ok (some stp, trajs, i :: rest, pfx ++ [stp], false) := by
  cases h5 : stp.pre_check_snapshot with
  | none => exact getNextStep_commit_nosnap h1 h2 h3 h4 h5
  | some snap => simp only [Replayer.get_next_step, h1, h3, h4, h5, h6, if_neg h2]

/-- C10: the replayer validates a step (inject → capture → compare deciding
commit versus prune) exactly when the step carries a recorded pre-check
snapshot and the live tool declares a pre-check; if the snapshot is missing,
or the tool has no pre-check, the step is committed to the prefix and
returned for execution with no validation at all. -/
theorem c10_validation_exactly_when_snapshot_and_check (V E S : Type) [DecidableEq V] :
    (∀ (reg : List (String × Tool V E S)) (ctx : RuntimeContext V) (now : Rat) (env : E)
       (trajs : List (Trajectory V S)) (i : Nat) (rest : List Nat) (pfx : List (Step V S))
       (t : Trajectory V S) (stp : Step V S) (tool : Tool V E S) (snap : S) (ch : Check V E S)
       (cargs : List (PVal V) × List (String × PVal V)),
      trajs[i]? = some t → ¬ t.steps.length = pfx.length →
      t.steps[pfx.length]? = some stp → lookupStr stp.func_name reg = some tool →
      stp.pre_check_snapshot = some snap → tool.pre_check = some ch →
      ctx.inject stp.args stp.kwargs = Except.ok cargs →
      Replayer.get_next_step reg ctx now env trajs (i :: rest) pfx =
        if ch.compare (ch.capture env cargs.1 cargs.2) snap then
          Except.ok (some stp, trajs, i :: rest, pfx ++ [stp], false)
        else
          Replayer.get_next_step reg ctx now env
            (trajs.set i { t with failed_runs := t.failed_runs + 1 }) rest pfx) ∧
    (∀ (reg : List (String × Tool V E S)) (ctx : RuntimeContext V) (now : Rat) (env : E)
       (trajs : List (Trajectory V S)) (i : Nat) (rest : List Nat) (pfx : List (Step V S))
       (t : Trajectory V S) (stp : Step V S) (tool : Tool V E S),
      trajs[i]? = some t → ¬ t.steps.length = pfx.length →
      t.steps[pfx.length]? = some stp → lookupStr stp.func_name reg = some tool →
      stp.pre_check_snapshot = none →
      Replayer.get_next_step reg ctx now env trajs (i :: rest) pfx =
        Except.ok (some stp, trajs, i :: rest, pfx ++ [stp], false)) ∧
    (∀ (reg : List (String × Tool V E S)) (ctx : RuntimeContext V) (now : Rat) (env : E)
       (trajs : List (Trajectory V S)) (i : Nat) (rest : List Nat) (pfx : List (Step V S))
       (t : Trajectory V S) (stp : Step V S) (tool : Tool V E S),
      trajs[i]? = some t → ¬ t.steps.length = pfx.length →
      t.steps[pfx.length]? = some stp → lookupStr stp.func_name reg = some tool →
      tool.pre_check = none →
      Replayer.get_next_step reg ctx now env trajs (i :: rest) pfx =
        Except.ok (some stp, trajs, i :: rest, pfx ++ [stp], false)) := by
  refine ⟨?_, ?_, ?_⟩
  · intro reg ctx now env trajs i rest pfx t stp tool snap ch cargs h1 h2 h3 h4 h5 h6 h7
    exact getNextStep_validation h1 h2 h3 h4 h5 h6 h7
  · intro reg ctx now env trajs i rest pfx t stp tool h1 h2 h3 h4 h5
    exact getNextStep_commit_nosnap h1 h2 h3 h4 h5
  · intro reg ctx now env trajs i rest pfx t stp tool h1 h2 h3 h4 h6
    exact getNextStep_commit_nocheck h1 h2 h3 h4 h6

/-- Witness for C10: the snapshot-less step and the checkless tool are both
committed untouched; the snapshotted, checked step goes through compare. -/
theorem c10_validation_witness :
    Replayer.get_next_step exReg exCtx 0 0 [exTrajNoSnap] [0] [] =
      Except.ok (some exStepNoSnap, [exTrajNoSnap], [0], [exStepNoSnap], false) ∧
    Replayer.get_next_step exReg exCtx 0 0 [exTrajPlain] [0] [] =
      Except.ok (some exStepPlain, [exTrajPlain], [0], [exStepPlain], false) := by
  constructor
  · exact (c10_validation_exactly_when_snapshot_and_check Nat Nat Nat).2.1
      exReg exCtx 0 0 _ 0 [] [] exTrajNoSnap exStepNoSnap exToolBad rfl (by decide) rfl rfl rfl
  · exact (c10_validation_exactly_when_snapshot_and_check Nat Nat Nat).2.2
      exReg exCtx 0 0 _ 0 [] [] exTrajPlain exStepPlain exToolPlain rfl (by decide) rfl rfl rfl

/-- C1: (i) `Tools.get` returns the live tool exactly when it is registered
under the name and its current fingerprint equals the recorded one — it is
a total function, so "otherwise `None`" never raises; (ii) a pre-check
validation failure during replay never surfaces an error: it increments the
owning candidate's `failed_runs`, removes it from the pool, and the
replayer continues with the next-ranked candidate at the same state;
(iii) when the pool is exhausted the Engine falls back to the agent and
reports an ordinary miss (`hit = false`), not an error. -/
theorem c1_drift_and_validation_never_raise (V E S : Type) [DecidableEq V] :
    (∀ (ts : List (String × ETool V E S)) (name hash : String) (t : ETool V E S),
      Tools.get ts name hash = some t ↔ lookupStr name ts = some t ∧ t.func_hash = hash) ∧
    (∀ (reg : List (String × Tool V E S)) (ctx : RuntimeContext V) (now : Rat) (env : E)
       (trajs : List (Trajectory V S)) (i : Nat) (rest : List Nat) (pfx : List (Step V S))
       (t : Trajectory V S) (stp : Step V S) (tool : Tool V E S) (snap : S) (ch : Check V E S)
       (cargs : List (PVal V) × List (String × PVal V)),
      trajs[i]? = some t → ¬ t.steps.length = pfx.length →
      t.steps[pfx.length]? = some stp → lookupStr stp.func_name reg = some tool →
      stp.pre_check_snapshot = some snap → tool.pre_check = some ch →
      ctx.inject stp.args stp.kwargs = Except.ok cargs →
      ch.compare (ch.capture env cargs.1 cargs.2) snap = false →
      Replayer.get_next_step reg ctx now env trajs (i :: rest) pfx =
        Replayer.get_next_step reg ctx now env
          (trajs.set i { t with failed_runs := t.failed_runs + 1 }) rest pfx) ∧
    (∀ (fuel : Nat) (st : EngineState V E S) (calls : List (AgentCall V E S))
       (skill : Option String) (params : Option (List (String × PVal V))) (now : Rat) (env : E)
       (env1 : E) (trajs1 : List (Trajectory V S)) (order1 : List Nat) (pfx1 : List (Step V S))
       (envF : E) (steps : List (Step V S)),
      Engine.replayLoop st.registry (Engine.updCtx st.ctx params) now fuel env
          ((lookupStr (skill.getD "") st.db).getD [])
          (sortCandidates ((lookupStr (skill.getD "") st.db).getD []) now) [] =
        Except.ok (true, env1, trajs1, order1, pfx1) →
      runAgent (Engine.updCtx st.ctx params) env1 calls = Except.ok (envF, steps) →
      Engine.call fuel st calls skill params now env =
        Except.ok (false,
          ⟨setStr (skill.getD "") (trajs1 ++ [recordedTraj steps now]) st.db,
           st.registry, Engine.updCtx st.ctx params⟩,
          envF)) := by
  refine ⟨?_, ?_, ?_⟩
  · intro ts name hash t
    unfold Tools.get
    cases hl : lookupStr name ts with
    | none => simp
    | some u =>
      by_cases hif : u.func_hash = hash
      · simp only [if_pos hif]
        constructor
        · intro h
          cases h
          exact ⟨rfl, hif⟩
        · intro h
          exact h.1
      · simp only [if_neg hif]
        constructor
        · intro h
          cases h
        · intro h
          cases h.1
          exact absurd h.2 hif
  · intro reg ctx now env trajs i rest pfx t stp tool snap ch cargs h1 h2 h3 h4 h5 h6 h7 h8
    exact getNextStep_prune h1 h2 h3 h4 h5 h6 h7 h8
  · intro fuel st calls skill params now env env1 trajs1 order1 pfx1 envF steps hR hA
    simp only [Engine.call, hR, hA]
    rfl

/-- Witness for C1 at concrete inputs: a drifted fingerprint resolves to
`none`-equivalently (the iff at "f"/"h1"), a failing pre-check prunes the
owning candidate with `failed_runs` incremented, and an empty pool falls
back to the agent with `hit = false`. -/
theorem c1_drift_and_validation_witness :
    (Tools.get exEts "f" "h1" = some exEt1 ↔
      lookupStr "f" exEts = some exEt1 ∧ exEt1.func_hash = "h1") ∧
    Replayer.get_next_step exReg exCtx 0 0 [exTrajBad] [0] [] =
      Replayer.get_next_step exReg exCtx 0 0 ([exTrajBad].set 0 exTrajBadFailed) [] [] ∧
    Engine.call 1 exStEmpty [] none none 0 0 =
      Except.ok (false, exStAfterMiss, 0) := by
  refine ⟨?_, ?_, ?_⟩
  · exact (c1_drift_and_validation_never_raise Nat Nat Nat).1 exEts "f" "h1" exEt1
  · exact (c1_drift_and_validation_never_raise Nat Nat Nat).2.1
      exReg exCtx 0 0 [exTrajBad] 0 [] [] exTrajBad exStepBad exToolBad 0 exCheckFail ([], [])
      rfl (by decide) rfl rfl rfl rfl rfl rfl
  · exact (c1_drift_and_validation_never_raise Nat Nat Nat).2.2
      1 exStEmpty [] none none 0 0 0 [] [] [] 0 [] rfl rfl

/-- A committed prefix only ever grows: any successful `get_next_step`
outcome extends the incoming prefix. -/
theorem getNextStep_pfx_extends {reg : List (String × Tool V E S)} {ctx : RuntimeContext V}
    {now : Rat} {env : E} :
    ∀ (order : List Nat) (trajs : List (Trajectory V S)) (pfx : List (Step V S))
      (r : Option (Step V S)) (trajs' : List (Trajectory V S)) (order' : List Nat)
      (pfx' : List (Step V S)) (ex : Bool),
      Replayer.get_next_step reg ctx now env trajs order pfx =
        Except.ok (r, trajs', order', pfx', ex) →
      ∃ added, pfx' = pfx ++ added := by
  intro order
  induction order with
  | nil =>
    intro trajs pfx r trajs' order' pfx' ex h
    simp only [Replayer.get_next_step] at h
    simp only [Except.ok.injEq, Prod.mk.injEq] at h
    exact ⟨[], by rw [← h.2.2.2.1, List.append_nil]⟩
  | cons i rest ih =>
    intro trajs pfx r trajs' order' pfx' ex h
    simp only [Replayer.get_next_step] at h
    cases hti : trajs[i]? with
    | none => simp only [hti] at h; exact Except.noConfusion h
    | some t =>
      simp only [hti] at h
      by_cases hlen : t.steps.length = pfx.length
      · simp only [if_pos hlen] at h
        simp only [Except.ok.injEq, Prod.mk.injEq] at h
        exact ⟨[], by rw [← h.2.2.2.1, List.append_nil]⟩
      · simp only [if_neg hlen] at h
        cases hst : t.steps[pfx.length]? with
        | none => simp only [hst] at h; exact Except.noConfusion h
        | some stp =>
          simp only [hst] at h
          cases hlk : lookupStr stp.func_name reg with
          | none => simp only [hlk] at h; exact Except.noConfusion h
          | some tool =>
            simp only [hlk] at h
            cases hsn : stp.pre_check_snapshot with
            | none =>
              simp only [hsn] at h
              simp only [Except.ok.injEq, Prod.mk.injEq] at h
              exact ⟨[stp], h.2.2.2.1.symm⟩
            | some snap =>
              simp only [hsn] at h
              cases hpc : tool.pre_check with
              | none =>
                simp only [hpc] at h
                simp only [Except.ok.injEq, Prod.mk.injEq] at h
                exact ⟨[stp], h.2.2.2.1.symm⟩
              | some ch =>
                simp only [hpc] at h
                cases hinj : RuntimeContext.inject ctx stp.args stp.kwargs with
                | error e => simp only [hinj] at h; exact Except.noConfusion h
                | ok cargs =>
                  simp only [hinj] at h
                  cases hcmp : ch.compare (ch.capture env cargs.1 cargs.2) snap with
                  | false =>
                    simp [hcmp] at h
                    exact ih _ _ _ _ _ _ _ h
                  | true =>
                    simp [hcmp] at h
                    exact ⟨[stp], h.2.2.2.1.symm⟩

/-- C2: pruning a failed candidate neither resets nor decrements the
committed prefix — the replayer retries the next-ranked candidate with the
very same prefix (so validation resumes at the same position k); and in
general every `get_next_step` outcome only ever extends the prefix. -/
theorem c2_prefix_survives_pruning (V E S : Type) [DecidableEq V] :
    (∀ (reg : List (String × Tool V E S)) (ctx : RuntimeContext V) (now : Rat) (env : E)
       (trajs : List (Trajectory V S)) (i : Nat) (rest : List Nat) (pfx : List (Step V S))
       (t : Trajectory V S) (stp : Step V S) (tool : Tool V E S) (snap : S) (ch : Check V E S)
       (cargs : List (PVal V) × List (String × PVal V)),
      trajs[i]? = some t → ¬ t.steps.length = pfx.length →
      t.steps[pfx.length]? = some stp → lookupStr stp.func_name reg = some tool →
      stp.pre_check_snapshot = some snap → tool.pre_check = some ch →
      ctx.inject stp.args stp.kwargs = Except.ok cargs →
      ch.compare (ch.capture env cargs.1 cargs.2) snap = false →
      Replayer.get_next_step reg ctx now env trajs (i :: rest) pfx =
        Replayer.get_next_step reg ctx now env
          (trajs.set i { t with failed_runs := t.failed_runs + 1 }) rest pfx) ∧
    (∀ (reg : List (String × Tool V E S)) (ctx : RuntimeContext V) (now : Rat) (env : E)
       (order : List Nat) (trajs : List (Trajectory V S)) (pfx : List (Step V S))
       (r : Option (Step V S)) (trajs' : List (Trajectory V S)) (order' : List Nat)
       (pfx' : List (Step V S)) (ex : Bool),
      Replayer.get_next_step reg ctx now env trajs order pfx =
        Except.ok (r, trajs', order', pfx', ex) →
      ∃ added, pfx' = pfx ++ added) := by
  constructor
  · intro reg ctx now env trajs i rest pfx t stp tool snap ch cargs h1 h2 h3 h4 h5 h6 h7 h8
    exact getNextStep_prune h1 h2 h3 h4 h5 h6 h7 h8
  · intro reg ctx now env order trajs pfx r trajs' order' pfx' ex h
    exact getNextStep_pfx_extends order trajs pfx r trajs' order' pfx' ex h

/-- Witness for C2: with a two-candidate pool, the first candidate's failed
validation passes the same empty prefix to the second candidate; and a
committed step extends the prefix. -/
theorem c2_prefix_survives_witness :
    Replayer.get_next_step exReg exCtx 0 0 [exTrajBad, exTrajPlain] [0, 1] [] =
      Replayer.get_next_step exReg exCtx 0 0
        ([exTrajBad, exTrajPlain].set 0 exTrajBadFailed) [1] [] ∧
    (∃ added, [exStepPlain] = ([] : List (Step Nat Nat)) ++ added) := by
  constructor
  · exact (c2_prefix_survives_pruning Nat Nat Nat).1
      exReg exCtx 0 0 [exTrajBad, exTrajPlain] 0 [1] [] exTrajBad exStepBad exToolBad 0
      exCheckFail ([], []) rfl (by decide) rfl rfl rfl rfl rfl rfl
  · exact (c2_prefix_survives_pruning Nat Nat Nat).2
      exReg exCtx 0 0 [0] [exTrajPlain] [] (some exStepPlain) [exTrajPlain] [0] [exStepPlain]
      false rfl

/-- The C6 counterexample: two trajectories with equal totals and equal
`last_successful_run`, where the one with the strictly higher success ratio
scores strictly lower, because `now` precedes `last_successful_run` and the
age factor is negative. -/
theorem c6_scoring_negative_age_cex :
    c6t1.successful_runs + c6t1.failed_runs = c6t2.successful_runs + c6t2.failed_runs ∧
    c6t1.last_successful_run = c6t2.last_successful_run ∧
    ((c6t2.successful_runs : Rat) /
        ((max 1 (c6t2.successful_runs + c6t2.failed_runs) : Nat) : Rat) <
      (c6t1.successful_runs : Rat) /
        ((max 1 (c6t1.successful_runs + c6t1.failed_runs) : Nat) : Rat)) ∧
    sort_fn c6t1 0 < sort_fn c6t2 0 := by
  refine ⟨by decide, by decide, by norm_num [c6t1, c6t2], by norm_num [sort_fn, c6t1, c6t2]⟩

/-- C6 (amended): for equal totals and equal `last_successful_run`, the
higher success ratio scores at least as high **provided the age
`now - last_successful_run` is nonnegative**; for equal ratios the older
`last_successful_run` scores at least as high unconditionally. -/
theorem c6_scoring_monotone (V S : Type) :
    (∀ (t1 t2 : Trajectory V S) (now : Rat),
      t1.successful_runs + t1.failed_runs = t2.successful_runs + t2.failed_runs →
      t1.last_successful_run = t2.last_successful_run →
      ((t2.successful_runs : Rat) /
          ((max 1 (t2.successful_runs + t2.failed_runs) : Nat) : Rat) ≤
        (t1.successful_runs : Rat) /
          ((max 1 (t1.successful_runs + t1.failed_runs) : Nat) : Rat)) →
      t1.last_successful_run ≤ now →
      sort_fn t2 now ≤ sort_fn t1 now) ∧
    (∀ (t1 t2 : Trajectory V S) (now : Rat),
      ((t1.successful_runs : Rat) /
          ((max 1 (t1.successful_runs + t1.failed_runs) : Nat) : Rat) =
        (t2.successful_runs : Rat) /
          ((max 1 (t2.successful_runs + t2.failed_runs) : Nat) : Rat)) →
      t1.last_successful_run ≤ t2.last_successful_run →
      sort_fn t2 now ≤ sort_fn t1 now) := by
  constructor
  · intro t1 t2 now htot hlast hr hage
    simp only [sort_fn]
    rw [← hlast]
    exact mul_le_mul_of_nonneg_right hr (sub_nonneg.mpr hage)
  · intro t1 t2 now hr hlast
    simp only [sort_fn]
    rw [← hr]
    have hnn : 0 ≤ (t1.successful_runs : Rat) /
        ((max 1 (t1.successful_runs + t1.failed_runs) : Nat) : Rat) :=
      div_nonneg (Nat.cast_nonneg _) (Nat.cast_nonneg _)
    exact mul_le_mul_of_nonneg_left (sub_le_sub_left hlast now) hnn

/-- Witness for the amended C6 at concrete trajectories. -/
theorem c6_scoring_monotone_witness :
    sort_fn c6w2 1 ≤ sort_fn c6w1 1 ∧ sort_fn c6w3 7 ≤ sort_fn c6w1 7 := by
  constructor
  · exact (c6_scoring_monotone Nat Nat).1 c6w1 c6w2 1 (by decide) (by decide)
      (by norm_num [c6w1, c6w2]) (by decide)
  · exact (c6_scoring_monotone Nat Nat).2 c6w1 c6w3 7 (by norm_num [c6w1, c6w3]) (by decide)

/-- C7: evaluated at the failing input, chat.py's `ToolRegistry.add_tool`
silently replaces the existing registration for "f" (no error), while
engine.py's `Tools.register` — and the spec — require a duplicate-tool
error (which `Tools.register` indeed raises). -/
theorem c7_add_tool_replaces_silently :
    ToolRegistry.add_tool exRegF exToolF2 = [("f", exToolF2)] ∧
    (lookupStr "f" (ToolRegistry.add_tool exRegF exToolF2)).map Tool.is_method = some true ∧
    exToolF1.is_method = false ∧
    Tools.register exEts exEt2 =
      Except.error (PyErr.valueError "Tool by name f already registered") := by
  refine ⟨rfl, rfl, rfl, rfl⟩

/-- The C8 counterexample: invocation 1 binds `params = {"n": 5}` (a miss
that records `inc n`); invocation 2 supplies **no** params yet still sees
`n = 5` — it replays with argument 5 (counter 0 → 5) and its context still
carries the old binding, so parameter values of one invocation are visible
to a later invocation that does not supply them. -/
theorem c8_params_visible_across_invocations_cex :
    hitOf c8Run1 = some false ∧
    hitOf c8Run2 = some true ∧
    envOf c8Run2 = some 5 ∧
    ctxParamsOf c8Run2 = some [("n", some 5)] := by
  refine ⟨by decide, by decide, by decide, by decide⟩

/-- C8 (amended): parameter bindings live in the one long-lived
RuntimeContext: an invocation's resulting context params are exactly
`updCtx` of the previous ones — overwritten only when a non-empty mapping
is supplied, and retained (hence visible later) when `params` is omitted or
empty. -/
theorem c8_params_persist_unless_supplied (V E S : Type) [DecidableEq V] :
    (∀ (fuel : Nat) (st : EngineState V E S) (calls : List (AgentCall V E S))
       (skill : Option String) (params : Option (List (String × PVal V))) (now : Rat)
       (env : E) (b : Bool) (st' : EngineState V E S) (envF : E),
      Engine.call fuel st calls skill params now env = Except.ok (b, st', envF) →
      st'.ctx = Engine.updCtx st.ctx params) ∧
    (∀ ctx : RuntimeContext V, Engine.updCtx ctx none = ctx) ∧
    (∀ ctx : RuntimeContext V, Engine.updCtx ctx (some []) = ctx) ∧
    (∀ (ctx : RuntimeContext V) (ps : List (String × PVal V)),
      ¬ ps = [] → Engine.updCtx ctx (some ps) = { ctx with params := ps }) := by
  refine ⟨?_, ?_, ?_, ?_⟩
  · intro fuel st calls skill params now env b st' envF h
    simp only [Engine.call] at h
    cases hR : Engine.replayLoop st.registry (Engine.updCtx st.ctx params) now fuel env
        ((lookupStr (skill.getD "") st.db).getD [])
        (sortCandidates ((lookupStr (skill.getD "") st.db).getD []) now) [] with
    | error e => simp only [hR] at h; exact Except.noConfusion h
    | ok res =>
      obtain ⟨ex, env1, trajs1, order1, pfx1⟩ := res
      simp only [hR] at h
      cases ex with
      | true =>
        cases hA : runAgent (Engine.updCtx st.ctx params) env1 calls with
        | error e => simp [hA] at h
        | ok r =>
          simp [hA] at h
          rw [← h.2.1]
      | false =>
        simp at h
        rw [← h.2.1]
  · intro ctx
    rfl
  · intro ctx
    rfl
  · intro ctx ps hps
    simp [Engine.updCtx, hps]

/-- Witness for the amended C8: the state produced by the concrete first
invocation carries exactly the supplied binding, and `updCtx` retains the
previous params when none are supplied. -/
theorem c8_params_persist_witness :
    (stOf c8Run1 exStEmpty).ctx = Engine.updCtx exStEmpty.ctx (some [("n", some 5)]) ∧
    Engine.updCtx (stOf c8Run1 exStEmpty).ctx none = (stOf c8Run1 exStEmpty).ctx := by
  constructor
  · exact (c8_params_persist_unless_supplied Nat Nat Nat).1 2 exStEmpty c8Calls (some "s")
      (some [("n", some 5)]) 0 0 false (stOf c8Run1 exStEmpty) 5 rfl
  · exact (c8_params_persist_unless_supplied Nat Nat Nat).2.1 (stOf c8Run1 exStEmpty).ctx

/-- The C4 counterexample: on a first invocation for an unseen key whose
agent makes exactly one tool call (to a tool without a pre-check, with a
real side effect: the counter moves 0 → 1), the invocation is a miss and
persists one trajectory — but with **zero** steps, not one step per tool
call as claimed. -/
theorem c4_unchecked_calls_not_recorded_cex :
    dbOf c4Run = some [("", [exTrajEmpty])] ∧
    hitOf c4Run = some false ∧
    envOf c4Run = some 1 ∧
    c4Calls.length = 1 ∧
    exTrajEmpty.steps.length = 0 := by
  refine ⟨by decide, by decide, by decide, by decide, by decide⟩

theorem runAgent_length {ctx : RuntimeContext V} :
    ∀ (calls : List (AgentCall V E S)) (env envF : E) (steps : List (Step V S)),
      runAgent ctx env calls = Except.ok (envF, steps) →
      steps.length = (calls.filter (fun c => c.tool.pre_check.isSome)).length := by
  intro calls
  induction calls with
  | nil =>
    intro env envF steps h
    simp only [runAgent, Except.ok.injEq, Prod.mk.injEq] at h
    rw [← h.2]
    rfl
  | cons c cs ih =>
    intro env envF steps h
    cases hpc : c.tool.pre_check with
    | none =>
      simp only [runAgent, hpc, Option.isSome_none, Bool.false_eq_true, if_false] at h
      have := ih _ _ _ h
      simp [List.filter_cons, hpc, this]
    | some ch =>
      simp only [runAgent, hpc, Option.isSome_some, if_true] at h
      cases hs : RuntimeContext.strip ctx c.args c.kwargs with
      | error e => simp only [Recorder.record, hs] at h; exact Except.noConfusion h
      | ok sa =>
        simp only [Recorder.record, hs] at h
        cases hr : runAgent ctx (c.tool.func env c.args c.kwargs) cs with
        | error e => simp only [hr] at h; exact Except.noConfusion h
        | ok r =>
          simp only [hr, Except.ok.injEq, Prod.mk.injEq] at h
          rw [← h.2]
          simp only [List.length_cons, List.filter_cons, hpc, Option.isSome_some, if_true]
          rw [ih _ _ _ hr]

theorem runAgent_cons_checked {ctx : RuntimeContext V} {c : AgentCall V E S}
    {cs : List (AgentCall V E S)} {ch : Check V E S}
    {sa : List (Arg V) × List (String × Arg V)} {env : E}
    (hpc : c.tool.pre_check = some ch)
    (hs : RuntimeContext.strip ctx c.args c.kwargs = Except.ok sa) :
    runAgent ctx env (c :: cs) =
      Except.map
        (fun r => (r.1,
          ({ func_name := c.tool.name, args := sa.1, kwargs := sa.2,
             pre_check_snapshot := some (ch.capture env c.args c.kwargs) } : Step V S) :: r.2))
        (runAgent ctx (c.tool.func env c.args c.kwargs) cs) := by
  simp only [runAgent, hpc, Option.isSome_some, if_true, Recorder.record, hs]
  cases hr : runAgent ctx (c.tool.func env c.args c.kwargs) cs with
  | error e => rfl
  | ok r => rfl

/-- C4 (amended): on a cache miss for a previously unseen task key the
Engine runs the agent with a fresh Recorder and persists exactly one new
trajectory with `successful_runs = 1, failed_runs = 0`, returning
`hit = false`; the Recorder appends one Step — with stripped args and the
captured pre-check snapshot — for every agent call to a tool that
**declares a pre-check**, and records nothing for the other calls. -/
theorem c4_miss_records_prechecked_calls (V E S : Type) [DecidableEq V] :
    (∀ (fuel : Nat) (st : EngineState V E S) (calls : List (AgentCall V E S))
       (skill : Option String) (params : Option (List (String × PVal V))) (now : Rat)
       (env envF : E) (steps : List (Step V S)),
      (lookupStr (skill.getD "") st.db).getD [] = [] →
      runAgent (Engine.updCtx st.ctx params) env calls = Except.ok (envF, steps) →
      Engine.call (fuel + 1) st calls skill params now env =
        Except.ok (false,
          ⟨setStr (skill.getD "") [recordedTraj steps now] st.db,
           st.registry, Engine.updCtx st.ctx params⟩,
          envF)) ∧
    (∀ (ctx : RuntimeContext V) (calls : List (AgentCall V E S)) (env envF : E)
       (steps : List (Step V S)),
      runAgent ctx env calls = Except.ok (envF, steps) →
      steps.length = (calls.filter (fun c => c.tool.pre_check.isSome)).length) ∧
    (∀ (ctx : RuntimeContext V) (c : AgentCall V E S) (cs : List (AgentCall V E S))
       (ch : Check V E S) (sa : List (Arg V) × List (String × Arg V)) (env : E),
      c.tool.pre_check = some ch →
      RuntimeContext.strip ctx c.args c.kwargs = Except.ok sa →
      runAgent ctx env (c :: cs) =
        Except.map
          (fun r => (r.1,
            ({ func_name := c.tool.name, args := sa.1, kwargs := sa.2,
               pre_check_snapshot := some (ch.capture env c.args c.kwargs) } : Step V S) :: r.2))
          (runAgent ctx (c.tool.func env c.args c.kwargs) cs)) := by
  refine ⟨?_, ?_, ?_⟩
  · intro fuel st calls skill params now env envF steps hdb hA
    have hloop : Engine.replayLoop st.registry (Engine.updCtx st.ctx params) now (fuel + 1)
        env [] [] [] = Except.ok (true, env, [], [], []) := rfl
    simp only [Engine.call, hdb]
    have hsc : sortCandidates ([] : List (Trajectory V S)) now = [] := rfl
    rw [hsc]
    simp only [hloop, hA]
    rfl
  · intro ctx calls env envF steps h
    exact runAgent_length calls env envF steps h
  · intro ctx c cs ch sa env hpc hs
    exact runAgent_cons_checked hpc hs

/-- Witness for the amended C4: the single pre-checked `inc 2` call is
recorded as one step with a static Arg and snapshot 0; the miss persists
exactly that one-step trajectory and reports `hit = false`. -/
theorem c4_miss_records_witness :
    Engine.call 1 exStEmpty c4wCalls none none 0 0 =
      Except.ok (false, ⟨setStr "" [recordedTraj [c4wStep] 0] [], exReg, exCtx⟩, 2) ∧
    ([c4wStep] : List (Step Nat Nat)).length =
      (c4wCalls.filter (fun c => c.tool.pre_check.isSome)).length ∧
    runAgent exCtx 0 (c4wCall :: []) =
      Except.map
        (fun r => (r.1,
          ({ func_name := c4wCall.tool.name,
             args := [{ kind := ArgKind.STATIC, key := none, value := some 2 }], kwargs := [],
             pre_check_snapshot := some (exCheckEq.capture 0 c4wCall.args c4wCall.kwargs) }
            : Step Nat Nat) :: r.2))
        (runAgent exCtx (c4wCall.tool.func 0 c4wCall.args c4wCall.kwargs) []) := by
  refine ⟨?_, ?_, ?_⟩
  · exact (c4_miss_records_prechecked_calls Nat Nat Nat).1 0 exStEmpty c4wCalls none none 0 0
      2 [c4wStep] rfl (by decide)
  · exact (c4_miss_records_prechecked_calls Nat Nat Nat).2.1 exCtx c4wCalls 0 2 [c4wStep]
      (by decide)
  · exact (c4_miss_records_prechecked_calls Nat Nat Nat).2.2 exCtx c4wCall [] exCheckEq
      ([{ kind := ArgKind.STATIC, key := none, value := some 2 }], []) 0 rfl (by decide)

theorem lookupStr_setStr_self {β : Type} (k : String) (v : β) :
    ∀ l : List (String × β), lookupStr k (setStr k v l) = some v := by
  intro l
  induction l with
  | nil => simp [setStr, lookupStr]
  | cons p rest ih =>
    cases p with
    | mk k' v' =>
      by_cases h : k' = k
      · simp [setStr, h, lookupStr]
      · simp only [setStr, if_neg h, lookupStr, ih]

theorem updCtx_idem (ctx : RuntimeContext V) (params : Option (List (String × PVal V))) :
    Engine.updCtx (Engine.updCtx ctx params) params = Engine.updCtx ctx params := by
  cases params with
  | none => rfl
  | some ps =>
    by_cases h : ps = []
    · simp [Engine.updCtx, h]
    · simp [Engine.updCtx, h]

/-- Replaying a single fully-valid candidate: starting from any committed
prefix `done` with remaining steps `rest` that are all within check
tolerance, the loop executes every remaining step, marks the candidate
successful, and ends without exhaustion. -/
theorem replayLoop_singleton {reg : List (String × Tool V E S)} {ctx : RuntimeContext V}
    {now : Rat} :
    ∀ (rest done : List (Step V S)) (fuel : Nat) (env : E) (t : Trajectory V S),
      t.steps = done ++ rest →
      stepsOk reg ctx env rest = true →
      rest.length + 1 ≤ fuel →
      Engine.replayLoop reg ctx now fuel env [t] [0] done =
        Except.ok (false, execSteps reg ctx env rest, [bumpSuccess t now], [0], t.steps) := by
  intro rest
  induction rest with
  | nil =>
    intro done fuel env t hsteps hok hfuel
    obtain ⟨f, rfl⟩ : ∃ f, fuel = f + 1 := ⟨fuel - 1, by omega⟩
    have hdone : done = t.steps := by rw [hsteps, List.append_nil]
    subst hdone
    simp only [Engine.replayLoop, Replayer.get_next_step, List.getElem?_cons_zero]
    simp [execSteps, bumpSuccess]
  | cons s r ih =>
    intro done fuel env t hsteps hok hfuel
    obtain ⟨f, rfl⟩ : ∃ f, fuel = f + 1 := ⟨fuel - 1, by omega⟩
    simp only [stepsOk] at hok
    cases hlk : lookupStr s.func_name reg with
    | none => simp only [hlk] at hok; exact Bool.noConfusion hok
    | some tool =>
      simp only [hlk] at hok
      cases hinj : RuntimeContext.inject ctx s.args s.kwargs with
      | error e => simp only [hinj] at hok; exact Bool.noConfusion hok
      | ok cargs =>
        simp only [hinj] at hok
        rw [Bool.and_eq_true] at hok
        obtain ⟨hval, hrest⟩ := hok
        have h1 : ([t] : List (Trajectory V S))[0]? = some t := rfl
        have hlen : ¬ t.steps.length = done.length := by
          rw [hsteps]
          simp only [List.length_append, List.length_cons]
          omega
        have hidx : t.steps[done.length]? = some s := by
          rw [hsteps, List.getElem?_append_right (Nat.le_refl done.length)]
          simp
        have hstep : Replayer.get_next_step reg ctx now env [t] [0] done =
            Except.ok (some s, [t], [0], done ++ [s], false) := by
          cases hsn : s.pre_check_snapshot with
          | none => exact getNextStep_commit_nosnap h1 hlen hidx hlk hsn
          | some snap =>
            cases hpc : tool.pre_check with
            | none => exact getNextStep_commit_nocheck h1 hlen hidx hlk hpc
            | some ch =>
              simp only [hsn, hpc] at hval
              rw [getNextStep_validation h1 hlen hidx hlk hsn hpc hinj, hval]
              simp
        have hexec : execSteps reg ctx env (s :: r) =
            execSteps reg ctx (tool.func env cargs.1 cargs.2) r := by
          simp only [execSteps, hlk, hinj]
        have hfuel' : r.length + 1 ≤ f := by
          simp only [List.length_cons] at hfuel
          omega
        have hsteps' : t.steps = (done ++ [s]) ++ r := by
          rw [hsteps, List.append_assoc]
          rfl
        simp only [Engine.replayLoop, hstep, hlk, hinj]
        rw [hexec]
        exact ih (done ++ [s]) f (tool.func env cargs.1 cargs.2) t hsteps' hrest hfuel'

/-- A single invocation against exactly one stored, fully-valid candidate
is a hit: the candidate is bumped in place and no trajectory is added. -/
theorem engineCall_hit {fuel : Nat} {st : EngineState V E S} {calls : List (AgentCall V E S)}
    {skill : Option String} {params : Option (List (String × PVal V))} {now : Rat} {env : E}
    {t : Trajectory V S}
    (hdb : lookupStr (skill.getD "") st.db = some [t])
    (hok : stepsOk st.registry (Engine.updCtx st.ctx params) env t.steps = true)
    (hfuel : t.steps.length + 1 ≤ fuel) :
    Engine.call fuel st calls skill params now env =
      Except.ok (true,
        ⟨setStr (skill.getD "") [bumpSuccess t now] st.db,
         st.registry, Engine.updCtx st.ctx params⟩,
        execSteps st.registry (Engine.updCtx st.ctx params) env t.steps) := by
  have hsc : sortCandidates [t] now = [0] := rfl
  have hloop : Engine.replayLoop st.registry (Engine.updCtx st.ctx params) now fuel env
      [t] [0] [] =
      Except.ok (false, execSteps st.registry (Engine.updCtx st.ctx params) env t.steps,
        [bumpSuccess t now], [0], t.steps) :=
    replayLoop_singleton t.steps [] fuel env t rfl hok hfuel
  simp only [Engine.call, hdb, Option.getD_some]
  rw [hsc]
  simp only [hloop]
  rfl

/-- Iterating hits: each restored-state invocation hits and preserves the
single stored trajectory (same steps, only the bookkeeping counters move). -/
theorem engineCall_hit_iter {fuel : Nat} {calls : List (AgentCall V E S)}
    {skill : Option String} {params : Option (List (String × PVal V))} {now : Rat} {envR : E} :
    ∀ (n : Nat) (st : EngineState V E S) (t : Trajectory V S),
      lookupStr (skill.getD "") st.db = some [t] →
      stepsOk st.registry (Engine.updCtx st.ctx params) envR t.steps = true →
      t.steps.length + 1 ≤ fuel →
      allHits fuel calls skill params now envR n st = true ∧
      ((lookupStr (skill.getD "")
          (iterCalls fuel calls skill params now envR n st).db).getD []).map
        Trajectory.steps = [t.steps] := by
  intro n
  induction n with
  | zero =>
    intro st t hdb hok hfuel
    constructor
    · rfl
    · simp [iterCalls, hdb]
  | succ n ih =>
    intro st t hdb hok hfuel
    have hcall : Engine.call fuel st calls skill params now envR =
        Except.ok (true,
          ⟨setStr (skill.getD "") [bumpSuccess t now] st.db,
           st.registry, Engine.updCtx st.ctx params⟩,
          execSteps st.registry (Engine.updCtx st.ctx params) envR t.steps) :=
      engineCall_hit hdb hok hfuel
    have hdb1 : lookupStr (skill.getD "")
        (⟨setStr (skill.getD "") [bumpSuccess t now] st.db, st.registry,
          Engine.updCtx st.ctx params⟩ : EngineState V E S).db =
        some [bumpSuccess t now] :=
      lookupStr_setStr_self (skill.getD "") [bumpSuccess t now] st.db
    have hok1 : stepsOk st.registry
        (Engine.updCtx (Engine.updCtx st.ctx params) params) envR
        (bumpSuccess t now).steps = true := by
      rw [updCtx_idem]
      exact hok
    obtain ⟨ha, hb⟩ := ih _ (bumpSuccess t now) hdb1 hok1 hfuel
    constructor
    · simp only [allHits, hcall]
      exact ha
    · simp only [iterCalls, hcall]
      exact hb

/-- C5: a cache hit adds no new trajectory — against a single stored,
check-tolerant candidate, one invocation returns hit and only rewrites the
same slot with the bumped candidate; and for every number `n` of repeated
invocations from the restored environment, all `n` return hit = true and
the stored list for the key still holds exactly one trajectory with the
original steps. -/
theorem c5_hit_adds_no_trajectory (V E S : Type) [DecidableEq V] :
    (∀ (fuel : Nat) (st : EngineState V E S) (calls : List (AgentCall V E S))
       (skill : Option String) (params : Option (List (String × PVal V))) (now : Rat)
       (env : E) (t : Trajectory V S),
      lookupStr (skill.getD "") st.db = some [t] →
      stepsOk st.registry (Engine.updCtx st.ctx params) env t.steps = true →
      t.steps.length + 1 ≤ fuel →
      Engine.call fuel st calls skill params now env =
        Except.ok (true,
          ⟨setStr (skill.getD "") [bumpSuccess t now] st.db,
           st.registry, Engine.updCtx st.ctx params⟩,
          execSteps st.registry (Engine.updCtx st.ctx params) env t.steps)) ∧
    (∀ (fuel : Nat) (st : EngineState V E S) (calls : List (AgentCall V E S))
       (skill : Option String) (params : Option (List (String × PVal V))) (now : Rat)
       (envR : E) (t : Trajectory V S),
      lookupStr (skill.getD "") st.db = some [t] →
      stepsOk st.registry (Engine.updCtx st.ctx params) envR t.steps = true →
      t.steps.length + 1 ≤ fuel →
      ∀ n : Nat,
        allHits fuel calls skill params now envR n st = true ∧
        ((lookupStr (skill.getD "")
            (iterCalls fuel calls skill params now envR n st).db).getD []).map
          Trajectory.steps = [t.steps]) := by
  constructor
  · intro fuel st calls skill params now env t hdb hok hfuel
    exact engineCall_hit hdb hok hfuel
  · intro fuel st calls skill params now envR t hdb hok hfuel n
    exact engineCall_hit_iter n st t hdb hok hfuel

/-- Witness for C5 at the concrete one-trajectory store: the invocation from
the restored counter 10 hits (replaying `inc 3` to reach 13) and rewrites
the single slot; three repeated restored invocations all hit and the store
still maps the key to exactly one trajectory with the original step. -/
theorem c5_hit_adds_no_trajectory_witness :
    Engine.call 2 c5St [] none none 0 10 =
      Except.ok (true,
        ⟨setStr "" [bumpSuccess c5Traj 0] [("", [c5Traj])], exReg, exCtx⟩, 13) ∧
    allHits 2 [] none none 0 10 3 c5St = true ∧
    ((lookupStr "" (iterCalls 2 [] none none 0 10 3 c5St).db).getD []).map
      Trajectory.steps = [c5Traj.steps] := by
  refine ⟨?_, ?_, ?_⟩
  · have h := (c5_hit_adds_no_trajectory Nat Nat Nat).1 2 c5St [] none none 0 10 c5Traj
      rfl (by decide) (by decide)
    simpa using h
  · exact ((c5_hit_adds_no_trajectory Nat Nat Nat).2 2 c5St [] none none 0 10 c5Traj
      rfl (by decide) (by decide) 3).1
  · exact ((c5_hit_adds_no_trajectory Nat Nat Nat).2 2 c5St [] none none 0 10 c5Traj
      rfl (by decide) (by decide) 3).2

end MuscleMem
